import Mathlib

/-!
Verification of the NYC cuisine-map scraping orchestrator.

This file gives a shallow embedding, in Lean, of the progress-tracking,
queue-construction, confidence-scoring and checkpointing logic of
`scripts/scrape_google_maps_parallel.py`, `scripts/scrape_google_maps.py`
and `scripts/merge_google_data.py`, and proves (or refutes) the spec's
claims about them.

Python strings are modelled as `List Char`; Python floats as `ℚ`;
fallible operations as `Option`/`Except`.  The `difflib.SequenceMatcher`
ratio used by `similarity` is modelled by the recursive
longest-matching-block computation that difflib performs (without its
junk/popularity heuristics, which never trigger on these inputs), with
an explicit fuel argument equal to the string length so that every
definition stays structurally recursive and executable.
-/

namespace Scraper

/-- One input record of `restaurants.json` (the fields the scrapers read). -/
structure Restaurant where
  name : String
  address : String
  category : String
  boro : String
deriving DecidableEq

/-- `f"{restaurant['name']}|{restaurant['address']}"` — the identity key used
for progress tracking and dedup. -/
def restaurantId (r : Restaurant) : String :=
  r.name ++ "|" ++ r.address

/-- `str.lower()` on the ASCII fragment, character-wise. -/
def pyLower (s : List Char) : List Char := s.map Char.toLower

/-- Length of the common prefix of two character lists. -/
def commonPrefixLen : List Char → List Char → Nat
  | a :: as, b :: bs => if a = b then commonPrefixLen as bs + 1 else 0
  | _, _ => 0

/-- The longest matching contiguous block `(i, j, k)` between `a` and `b`
(`a.drop i` and `b.drop j` agree for `k` characters), as found by
`difflib.SequenceMatcher.find_longest_match`: scan every candidate start
pair, keep the first maximum. -/
def bestBlock (a b : List Char) : Nat × Nat × Nat :=
  ((List.range (a.length + 1)).flatMap fun i =>
    (List.range (b.length + 1)).map fun j =>
      (i, j, commonPrefixLen (a.drop i) (b.drop j))).foldl
    (fun best c => if best.2.2 < c.2.2 then c else best) (0, 0, 0)

/-- Total size of the matching blocks between `a` and `b`
(`sum of k for the blocks difflib recursively extracts`); `fuel` bounds the
recursion depth and is instantiated with `a.length`, which always suffices. -/
def matchesTotalAux : Nat → List Char → List Char → Nat
  | 0, _, _ => 0
  | fuel + 1, a, b =>
    if (bestBlock a b).2.2 = 0 then 0
    else
      matchesTotalAux fuel (a.take (bestBlock a b).1) (b.take (bestBlock a b).2.1) +
        (bestBlock a b).2.2 +
        matchesTotalAux fuel (a.drop ((bestBlock a b).1 + (bestBlock a b).2.2))
          (b.drop ((bestBlock a b).2.1 + (bestBlock a b).2.2))

/-- Total matched characters between `a` and `b`. -/
def matchesTotal (a b : List Char) : Nat := matchesTotalAux a.length a b

/-- difflib's `_calculate_ratio(matches, length)`:
`2.0 * matches / length` when `length` is nonzero, else `1.0`. -/
def calculateRatio (m len : Nat) : ℚ :=
  if len ≠ 0 then 2 * (m : ℚ) / (len : ℚ) else 1

/-- `SequenceMatcher(None, a, b).ratio()`. -/
def matchRatio (a b : List Char) : ℚ :=
  calculateRatio (matchesTotal a b) (a.length + b.length)

/-- `similarity(a, b)` from the scraper scripts:
`0` if either string is falsy, else the case-insensitive ratio. -/
def similarity (a b : List Char) : ℚ :=
  if a = [] ∨ b = [] then 0 else matchRatio (pyLower a) (pyLower b)

/-- The parallel scraper's confidence rule
(`name_sim > 0.9 or (name_sim > 0.5 and addr_sim > 0.8)`). -/
def confidentParallel (name_sim addr_sim : ℚ) : Bool :=
  decide (name_sim > 0.9) || (decide (name_sim > 0.5) && decide (addr_sim > 0.8))

/-- The single-stream scraper's confidence rule (`name_sim > 0.7`). -/
def confidentSingle (name_sim : ℚ) : Bool :=
  decide (name_sim > 0.7)

/-- Python's `str.replace(pat, rep)`: replace non-overlapping occurrences of
`pat` left-to-right.  `fuel` is instantiated with `s.length`, which always
suffices because a match consumes at least one character. -/
def pyReplaceAux (pat rep : List Char) : Nat → List Char → List Char
  | _, [] => []
  | 0, s => s
  | fuel + 1, c :: rest =>
    if pat ≠ [] ∧ pat.isPrefixOf (c :: rest) then
      rep ++ pyReplaceAux pat rep fuel ((c :: rest).drop pat.length)
    else
      c :: pyReplaceAux pat rep fuel rest

/-- `s.replace(pat, rep)` (for the nonempty patterns the scripts use). -/
def pyReplace (s pat rep : List Char) : List Char :=
  pyReplaceAux pat rep s.length s

/-- `str.strip()`: drop leading and trailing whitespace. -/
def pyStrip (s : List Char) : List Char :=
  ((s.dropWhile Char.isWhitespace).reverse.dropWhile Char.isWhitespace).reverse

/-- `re.sub(r'\s+', ' ', s)`: collapse every whitespace run to one space. -/
def squashWs : List Char → List Char
  | [] => []
  | c :: rest =>
    if c.isWhitespace then
      match squashWs rest with
      | ' ' :: tail => ' ' :: tail
      | other => ' ' :: other
    else c :: squashWs rest

/-- Substring containment, `pat in s` on Python strings. -/
def containsSub (pat : List Char) : List Char → Bool
  | [] => pat.isEmpty
  | c :: rest => pat.isPrefixOf (c :: rest) || containsSub pat rest

/-- The replacement table of `merge_google_data.normalize_address`
(applied in order; the final pair is the single double-space pass). -/
def addressReplacements : List (List Char × List Char) :=
  [("street".toList, "st".toList),
   ("avenue".toList, "ave".toList),
   ("boulevard".toList, "blvd".toList),
   ("road".toList, "rd".toList),
   ("drive".toList, "dr".toList),
   ("place".toList, "pl".toList),
   ("court".toList, "ct".toList),
   ("lane".toList, "ln".toList),
   ("  ".toList, " ".toList)]

/-- `normalize_address` from `merge_google_data.py`: lower-case, cut at the
first comma, apply the abbreviation replacements, strip. -/
def normalize_address (addr : List Char) : List Char :=
  if addr = [] then []
  else
    let a1 := pyLower addr
    let a2 := if (',' ∈ a1) then a1.takeWhile (fun c => c ≠ ',') else a1
    let a3 := addressReplacements.foldl (fun s pr => pyReplace s pr.1 pr.2) a2
    pyStrip a3

/-- `address_similarity` from `merge_google_data.py`. -/
def address_similarity (a b : List Char) : ℚ :=
  similarity (normalize_address a) (normalize_address b)

/-- `true` iff the list contains two adjacent space characters. -/
def hasDoubleSpace : List Char → Bool
  | ' ' :: ' ' :: _ => true
  | _ :: rest => hasDoubleSpace rest
  | [] => false

/-- Python's `round(q, 2)` (round half to even, as on exact values). -/
def pyRound2 (q : ℚ) : ℚ :=
  (if Int.fract (q * 100) = 1 / 2 then
    (if Even ⌊q * 100⌋ then ⌊q * 100⌋ else ⌊q * 100⌋ + 1)
  else round (q * 100) : ℤ) / 100

/-- The dict built by `extract_place_info` in the parallel scraper:
`found`, optional name/address/category/url, optional error text. -/
structure ExtractInfo where
  found : Bool
  google_name : Option String
  google_address : Option String
  google_category : Option String
  google_url : Option String
  info_error : Option String
deriving DecidableEq

/-- The per-restaurant result dict assembled by the parallel scraper's
`scrape_restaurant` (a missing key is `none`). -/
structure Outcome where
  original_name : String
  original_address : String
  original_category : String
  original_boro : String
  search_query : String
  scraped_at : String
  found : Bool
  google_name : Option String
  google_address : Option String
  google_category : Option String
  google_url : Option String
  name_similarity : Option ℚ
  address_similarity : Option ℚ
  confident_match : Option Bool
  out_error : Option String
deriving DecidableEq

/-- `build_search_query`: whitespace-normalize the name, then
`f'"{name}" {address} {boro} NYC'`. -/
def buildSearchQuery (r : Restaurant) : String :=
  let name := String.mk (pyStrip (squashWs r.name.toList))
  "\"" ++ name ++ "\" " ++ r.address ++ " " ++ r.boro ++ " NYC"

/-- The local `addr_sim` of the parallel `scrape_restaurant`: `0` unless both
the extracted and the original address are truthy. -/
def addrSimP (r : Restaurant) (info : ExtractInfo) : ℚ :=
  match info.google_address with
  | some gaddr =>
    if gaddr ≠ "" ∧ r.address ≠ "" then similarity r.address.toList gaddr.toList
    else 0
  | none => 0

/-- The outcome skeleton shared by every branch of `scrape_restaurant`
(the dict literal built before the `try`). -/
def baseOutcome (r : Restaurant) (now : String) : Outcome :=
  { original_name := r.name
    original_address := r.address
    original_category := r.category
    original_boro := r.boro
    search_query := buildSearchQuery r
    scraped_at := now
    found := false
    google_name := none
    google_address := none
    google_category := none
    google_url := none
    name_similarity := none
    address_similarity := none
    confident_match := none
    out_error := none }

/-- `scrape_restaurant` of `scrape_google_maps_parallel.py`.  The navigation
and extraction attempt is passed as an `Except`: `.error e` is an exception
raised while fetching/extracting and caught by the function's `try/except`
(which records the error text and `found = False`); `.ok info` is the dict
returned by `extract_place_info`. -/
def scrapeRestaurantP (r : Restaurant) (fetch : Except String ExtractInfo)
    (now : String) : Outcome :=
  match fetch with
  | .error e => { baseOutcome r now with out_error := some e, found := false }
  | .ok info =>
    let withInfo := { baseOutcome r now with
      found := info.found
      google_name := info.google_name
      google_address := info.google_address
      google_category := info.google_category
      google_url := info.google_url
      out_error := info.info_error }
    match info.google_name with
    | some gname =>
      if gname = "" then withInfo
      else
        let name_sim := similarity r.name.toList gname.toList
        let addr_sim := addrSimP r info
        { withInfo with
          name_similarity := some (pyRound2 name_sim)
          address_similarity :=
            match info.google_address with
            | some gaddr =>
              if gaddr ≠ "" ∧ r.address ≠ "" then some (pyRound2 addr_sim) else none
            | none => none
          confident_match := some (confidentParallel name_sim addr_sim) }
    | none => withInfo

/-- The dict built by `extract_place_info` in the single-stream scraper
(it additionally extracts rating and review count). -/
structure ExtractInfoS where
  found : Bool
  google_name : Option String
  google_address : Option String
  google_category : Option String
  google_rating : Option ℚ
  google_reviews : Option ℚ
  google_url : Option String
  info_error : Option String
deriving DecidableEq

/-- The result dict of the single-stream `scrape_restaurant`. -/
structure OutcomeS where
  original_name : String
  original_address : String
  original_category : String
  original_boro : String
  search_query : String
  scraped_at : String
  found : Bool
  google_name : Option String
  google_address : Option String
  google_category : Option String
  google_rating : Option ℚ
  google_reviews : Option ℚ
  google_url : Option String
  name_similarity : Option ℚ
  confident_match : Option Bool
  out_error : Option String
deriving DecidableEq

/-- `scrape_restaurant` of `scrape_google_maps.py`: same shape as the
parallel one, but the verdict is `name_sim > 0.7` and no address
similarity is computed. -/
def scrapeRestaurantS (r : Restaurant) (fetch : Except String ExtractInfoS)
    (now : String) : OutcomeS :=
  let base : OutcomeS :=
    { original_name := r.name
      original_address := r.address
      original_category := r.category
      original_boro := r.boro
      search_query := buildSearchQuery r
      scraped_at := now
      found := false
      google_name := none
      google_address := none
      google_category := none
      google_rating := none
      google_reviews := none
      google_url := none
      name_similarity := none
      confident_match := none
      out_error := none }
  match fetch with
  | .error e => { base with out_error := some e, found := false }
  | .ok info =>
    let withInfo := { base with
      found := info.found
      google_name := info.google_name
      google_address := info.google_address
      google_category := info.google_category
      google_rating := info.google_rating
      google_reviews := info.google_reviews
      google_url := info.google_url
      out_error := info.info_error }
    match info.google_name with
    | some gname =>
      if gname = "" then withInfo
      else
        let name_sim := similarity r.name.toList gname.toList
        { withInfo with
          name_similarity := some (pyRound2 name_sim)
          confident_match := some (confidentSingle name_sim) }
    | none => withInfo

/-- The shared progress dict (`scraped_ids` / `results` / `failed` /
`last_updated`). -/
structure Progress where
  scraped_ids : List String
  results : List Outcome
  failed : List Outcome
  last_updated : Option String
deriving DecidableEq

/-- The fresh progress dict literal used when not resuming (and by
`load_progress` when the file is missing). -/
def emptyProgress : Progress :=
  { scraped_ids := [], results := [], failed := [], last_updated := none }

/-- The identity key a recorded outcome carries. -/
def outcomeId (o : Outcome) : String :=
  o.original_name ++ "|" ++ o.original_address

/-- One recording step of the worker loop: append the restaurant's id to
`scraped_ids` and the outcome to `results` or `failed` by its `found` flag. -/
def recordOutcome (p : Progress) (r : Restaurant) (result : Outcome) : Progress :=
  { p with
    scraped_ids := p.scraped_ids ++ [restaurantId r]
    results := if result.found then p.results ++ [result] else p.results
    failed := if result.found then p.failed else p.failed ++ [result] }

/-- A worker-side recording trace: each step scrapes one restaurant (with the
given fetch result and timestamp) and records the outcome. -/
def runRecord (p : Progress)
    (steps : List (Restaurant × Except String ExtractInfo × String)) : Progress :=
  steps.foldl (fun q s => recordOutcome q s.1 (scrapeRestaurantP s.1 s.2.1 s.2.2)) p

/-- `'Unspecified' in r.get('category', '')`. -/
def isUnspecified (r : Restaurant) : Bool :=
  containsSub "Unspecified".toList r.category.toList

/-- The task queue derived by `run_scraper` (lines 424–437 of the parallel
scraper): filter out completed ids, optionally move `Unspecified` categories
to the front, optionally truncate to the sample size. -/
def derivedQueue (restaurants : List Restaurant) (p : Progress)
    (prioritize : Bool) (sample : Option Nat) : List Restaurant :=
  let remaining := restaurants.filter
    (fun r => !(p.scraped_ids.contains (restaurantId r)))
  let remaining2 :=
    if prioritize then
      remaining.filter isUnspecified ++ remaining.filter (fun r => !isUnspecified r)
    else remaining
  match sample with
  | some n => if n ≠ 0 then remaining2.take n else remaining2
  | none => remaining2

/-- Queue construction as the specification words it: (a) drop every entity
whose identity key is completed; (b) when prioritization is enabled,
partition the rest into priority (unspecified category) and normal tasks,
concatenated priority-first. -/
def specQueue (restaurants : List Restaurant) (completedKeys : List String)
    (prioritize : Bool) : List Restaurant :=
  let rem := restaurants.filter (fun r => !(completedKeys.contains (restaurantId r)))
  if prioritize then
    (rem.partition isUnspecified).1 ++ (rem.partition isUnspecified).2
  else rem

/-- JSON values, the data `json.dump` writes and `json.load` returns. -/
inductive Json where
  | null
  | jbool (b : Bool)
  | num (q : ℚ)
  | str (s : String)
  | arr (xs : List Json)
  | obj (fields : List (String × Json))

/-- The bytes of the checkpoint file: either text that parses as JSON
(`valid`), or text that makes `json.load` raise (`corrupt`). -/
inductive Artifact where
  | valid (j : Json)
  | corrupt (text : String)

def encOptStr : Option String → Json
  | none => Json.null
  | some s => Json.str s

def encOptNum : Option ℚ → Json
  | none => Json.null
  | some q => Json.num q

def encOptBool : Option Bool → Json
  | none => Json.null
  | some b => Json.jbool b

/-- The JSON object `json.dump` writes for one outcome dict. -/
def encodeOutcome (o : Outcome) : Json :=
  Json.obj
    [("original_name", Json.str o.original_name),
     ("original_address", Json.str o.original_address),
     ("original_category", Json.str o.original_category),
     ("original_boro", Json.str o.original_boro),
     ("search_query", Json.str o.search_query),
     ("scraped_at", Json.str o.scraped_at),
     ("found", Json.jbool o.found),
     ("google_name", encOptStr o.google_name),
     ("google_address", encOptStr o.google_address),
     ("google_category", encOptStr o.google_category),
     ("google_url", encOptStr o.google_url),
     ("name_similarity", encOptNum o.name_similarity),
     ("address_similarity", encOptNum o.address_similarity),
     ("confident_match", encOptBool o.confident_match),
     ("error", encOptStr o.out_error)]

/-- The JSON object `save_progress` writes for the whole progress dict. -/
def encodeProgress (p : Progress) : Json :=
  Json.obj
    [("scraped_ids", Json.arr (p.scraped_ids.map Json.str)),
     ("results", Json.arr (p.results.map encodeOutcome)),
     ("failed", Json.arr (p.failed.map encodeOutcome)),
     ("last_updated", encOptStr p.last_updated)]

/-- Dictionary key lookup (`d[key]`). -/
def getField : List (String × Json) → String → Option Json
  | [], _ => none
  | (k, v) :: rest, key => if k = key then some v else getField rest key

def asStr : Json → Option String
  | Json.str s => some s
  | _ => none

def asBool : Json → Option Bool
  | Json.jbool b => some b
  | _ => none

def asArr : Json → Option (List Json)
  | Json.arr xs => some xs
  | _ => none

def asOptStr : Json → Option (Option String)
  | Json.null => some none
  | Json.str s => some (some s)
  | _ => none

def asOptNum : Json → Option (Option ℚ)
  | Json.null => some none
  | Json.num q => some (some q)
  | _ => none

def asOptBool : Json → Option (Option Bool)
  | Json.null => some none
  | Json.jbool b => some (some b)
  | _ => none

def decodeList {α : Type} (dec : Json → Option α) : List Json → Option (List α)
  | [] => some []
  | j :: rest =>
    match dec j with
    | some x =>
      match decodeList dec rest with
      | some xs => some (x :: xs)
      | none => none
    | none => none

/-- Read an outcome dict back out of its JSON object, field by field, the way
the resumed run and the merge stage access the keys. -/
def decodeOutcome (j : Json) : Option Outcome := do
  let Json.obj fs := j | none
  let oname ← getField fs "original_name" >>= asStr
  let oaddr ← getField fs "original_address" >>= asStr
  let ocat ← getField fs "original_category" >>= asStr
  let oboro ← getField fs "original_boro" >>= asStr
  let squery ← getField fs "search_query" >>= asStr
  let sat ← getField fs "scraped_at" >>= asStr
  let fnd ← getField fs "found" >>= asBool
  let gname ← getField fs "google_name" >>= asOptStr
  let gaddr ← getField fs "google_address" >>= asOptStr
  let gcat ← getField fs "google_category" >>= asOptStr
  let gurl ← getField fs "google_url" >>= asOptStr
  let nsim ← getField fs "name_similarity" >>= asOptNum
  let asim ← getField fs "address_similarity" >>= asOptNum
  let conf ← getField fs "confident_match" >>= asOptBool
  let err ← getField fs "error" >>= asOptStr
  pure
    { original_name := oname, original_address := oaddr,
      original_category := ocat, original_boro := oboro,
      search_query := squery, scraped_at := sat, found := fnd,
      google_name := gname, google_address := gaddr, google_category := gcat,
      google_url := gurl, name_similarity := nsim, address_similarity := asim,
      confident_match := conf, out_error := err }

/-- Read the whole progress dict back out of its JSON object. -/
def decodeProgress (j : Json) : Option Progress := do
  let Json.obj fs := j | none
  let ids ← getField fs "scraped_ids" >>= asArr >>= decodeList asStr
  let res ← getField fs "results" >>= asArr >>= decodeList decodeOutcome
  let fl ← getField fs "failed" >>= asArr >>= decodeList decodeOutcome
  let lu ← getField fs "last_updated" >>= asOptStr
  pure { scraped_ids := ids, results := res, failed := fl, last_updated := lu }

/-- The JSON object of the fresh progress dict. -/
def emptyProgressJson : Json := encodeProgress emptyProgress

/-- `save_progress`: set `last_updated` to the current time and dump the
dict to the checkpoint file. -/
def save_progress (p : Progress) (now : String) : Artifact :=
  Artifact.valid (encodeProgress { p with last_updated := some now })

/-- `load_progress`: if the checkpoint file exists, `json.load` it (raising
on unparseable text); otherwise return the fresh dict. -/
def load_progress : Option Artifact → Except String Json
  | some (Artifact.valid j) => Except.ok j
  | some (Artifact.corrupt _) => Except.error "json.decoder.JSONDecodeError"
  | none => Except.ok emptyProgressJson

/-- `run_scraper`'s initial progress state:
`load_progress() if resume else {fresh dict}`. -/
def initialProgress (resume : Bool) (artifact : Option Artifact) :
    Except String Json :=
  if resume then load_progress artifact else Except.ok emptyProgressJson

/-- A concrete restaurant used to instantiate the theorems. -/
def sampleRestaurant : Restaurant :=
  { name := "Joes Pizza", address := "7 Carmine St", category := "Pizza", boro := "Manhattan" }

/-- A concrete parallel-extraction result used to instantiate the theorems. -/
def sampleInfo : ExtractInfo :=
  { found := true, google_name := some "Joes Pizza",
    google_address := some "7 Carmine St, New York, NY 10014",
    google_category := some "Pizza restaurant",
    google_url := some "https://maps.google.com/x", info_error := none }

/-- A concrete parallel-extraction result with no address. -/
def sampleInfoNoAddr : ExtractInfo :=
  { found := true, google_name := some "Joes Pizza", google_address := none,
    google_category := none, google_url := none, info_error := none }

/-- A concrete extraction failure (`found = False`, error recorded inside
`extract_place_info`). -/
def sampleInfoFailed : ExtractInfo :=
  { found := false, google_name := none, google_address := none,
    google_category := none, google_url := none,
    info_error := some "Timeout 15000ms exceeded." }

/-- A concrete single-stream extraction result. -/
def sampleInfoS : ExtractInfoS :=
  { found := true, google_name := some "Joes Pizza", google_address := none,
    google_category := some "Pizza restaurant", google_rating := some 4.5,
    google_reviews := some 120, google_url := none, info_error := none }

/-- The ProgressState invariant of the specification: completed-key count
equals successes plus failures, every recorded outcome's key appears exactly
once in the completed keys. -/
def progressInv (p : Progress) : Prop :=
  p.scraped_ids.length = p.results.length + p.failed.length ∧
  (∀ o ∈ p.results, p.scraped_ids.count (outcomeId o) = 1) ∧
  (∀ o ∈ p.failed, p.scraped_ids.count (outcomeId o) = 1)

instance (p : Progress) : Decidable (progressInv p) := by
  unfold progressInv
  infer_instance

/-- A second concrete restaurant (category marked Unspecified). -/
def sampleRestaurantB : Restaurant :=
  { name := "Burger Spot", address := "1 Main St",
    category := "Unspecified", boro := "Queens" }

/-- A third concrete restaurant. -/
def sampleRestaurantC : Restaurant :=
  { name := "Cafe X", address := "2 Main St", category := "Coffee", boro := "Bronx" }

/-- A concrete entity list with pairwise-distinct identity keys. -/
def sampleRestaurants : List Restaurant :=
  [sampleRestaurant, sampleRestaurantB, sampleRestaurantC]

/-- A concrete progress state with one completed key from `sampleRestaurants`. -/
def sampleProgressOne : Progress :=
  { scraped_ids := [restaurantId sampleRestaurantC], results := [], failed := [],
    last_updated := none }

/-- Two recording steps for the same restaurant — the trace produced when the
input list contains two entities with the same identity key. -/
def dupSteps : List (Restaurant × Except String ExtractInfo × String) :=
  [(sampleRestaurant, Except.error "timeout", "t0"),
   (sampleRestaurant, Except.error "timeout", "t1")]

/-- A single recording step. -/
def oneStep : List (Restaurant × Except String ExtractInfo × String) :=
  [(sampleRestaurant, Except.error "timeout", "t0")]

/- ### Basic bounds on the similarity machinery -/

lemma commonPrefixLen_le_left : ∀ a b : List Char, commonPrefixLen a b ≤ a.length := by
  intro a
  induction a with
  | nil => intro b; cases b <;> simp [commonPrefixLen]
  | cons c cs ih =>
    intro b
    cases b with
    | nil => simp [commonPrefixLen]
    | cons d ds =>
      simp only [commonPrefixLen, List.length_cons]
      split
      · exact Nat.succ_le_succ (ih ds)
      · exact Nat.zero_le _

lemma commonPrefixLen_le_right : ∀ a b : List Char, commonPrefixLen a b ≤ b.length := by
  intro a
  induction a with
  | nil => intro b; cases b <;> simp [commonPrefixLen]
  | cons c cs ih =>
    intro b
    cases b with
    | nil => simp [commonPrefixLen]
    | cons d ds =>
      simp only [commonPrefixLen, List.length_cons]
      split
      · exact Nat.succ_le_succ (ih ds)
      · exact Nat.zero_le _

lemma foldl_choice {α : Type} (P : α → Prop) (f : α → α → α)
    (hf : ∀ acc x, f acc x = acc ∨ f acc x = x) :
    ∀ (l : List α) (init : α), P init → (∀ x ∈ l, P x) → P (l.foldl f init) := by
  intro l
  induction l with
  | nil => intro init h _; simpa using h
  | cons x xs ih =>
    intro init hinit hall
    simp only [List.foldl_cons]
    apply ih
    · rcases hf init x with h | h
      · rw [h]; exact hinit
      · rw [h]; exact hall x (List.mem_cons_self _ _)
    · intro y hy; exact hall y (List.mem_cons_of_mem _ hy)

lemma bestBlock_le (a b : List Char) :
    (bestBlock a b).1 + (bestBlock a b).2.2 ≤ a.length ∧
      (bestBlock a b).2.1 + (bestBlock a b).2.2 ≤ b.length := by
  unfold bestBlock
  apply foldl_choice
    (fun t : Nat × Nat × Nat => t.1 + t.2.2 ≤ a.length ∧ t.2.1 + t.2.2 ≤ b.length)
  · intro acc x
    by_cases h : acc.2.2 < x.2.2
    · right; simp [h]
    · left; simp [h]
  · simp
  · intro x hx
    simp only [List.mem_flatMap, List.mem_map, List.mem_range] at hx
    obtain ⟨i, hi, j, hj, rfl⟩ := hx
    have h1 := commonPrefixLen_le_left (a.drop i) (b.drop j)
    have h2 := commonPrefixLen_le_right (a.drop i) (b.drop j)
    simp only [List.length_drop] at h1 h2
    constructor <;> simp <;> omega

lemma matchesTotalAux_le : ∀ (fuel : Nat) (a b : List Char),
    matchesTotalAux fuel a b ≤ a.length ∧ matchesTotalAux fuel a b ≤ b.length := by
  intro fuel
  induction fuel with
  | zero => intro a b; simp [matchesTotalAux]
  | succ n ih =>
    intro a b
    rw [matchesTotalAux]
    split
    · simp
    · have hle := bestBlock_le a b
      have h1 := ih (a.take (bestBlock a b).1) (b.take (bestBlock a b).2.1)
      have h2 := ih (a.drop ((bestBlock a b).1 + (bestBlock a b).2.2))
        (b.drop ((bestBlock a b).2.1 + (bestBlock a b).2.2))
      simp only [List.length_take, List.length_drop] at h1 h2
      omega

lemma matchesTotal_le (a b : List Char) :
    matchesTotal a b ≤ a.length ∧ matchesTotal a b ≤ b.length :=
  matchesTotalAux_le a.length a b

lemma matchRatio_nonneg (a b : List Char) : 0 ≤ matchRatio a b := by
  unfold matchRatio calculateRatio
  split
  · positivity
  · norm_num

lemma matchRatio_le_one (a b : List Char) : matchRatio a b ≤ 1 := by
  unfold matchRatio calculateRatio
  split
  · rename_i h
    rw [div_le_one (by positivity)]
    have hb := matchesTotal_le a b
    push_cast
    have : (matchesTotal a b : ℚ) ≤ a.length := by exact_mod_cast hb.1
    have : (matchesTotal a b : ℚ) ≤ b.length := by exact_mod_cast hb.2
    linarith
  · norm_num

/-- C10: `similarity` returns `0` whenever either argument is empty — in
particular two equal empty strings score `0`, not `1` — and on nonempty
arguments it is the case-insensitive SequenceMatcher ratio, which lies in
`[0, 1]`. -/
theorem similarity_empty_zero_and_unit_range (a b : List Char)
    (ha : a ≠ []) (hb : b ≠ []) :
    similarity [] [] = 0 ∧ similarity [] b = 0 ∧ similarity a [] = 0 ∧
    similarity a b = matchRatio (pyLower a) (pyLower b) ∧
    0 ≤ similarity a b ∧ similarity a b ≤ 1 := by
  have hval : similarity a b = matchRatio (pyLower a) (pyLower b) := by
    unfold similarity
    rw [if_neg (by simp [ha, hb])]
  refine ⟨by simp [similarity], by simp [similarity], by simp [similarity], hval, ?_, ?_⟩
  · rw [hval]; exact matchRatio_nonneg _ _
  · rw [hval]; exact matchRatio_le_one _ _

theorem similarity_empty_zero_and_unit_range_witness :
    ("a".toList ≠ [] ∧ "ab".toList ≠ []) ∧
    (similarity [] [] = 0 ∧ similarity [] "ab".toList = 0 ∧
      similarity "a".toList [] = 0 ∧
      similarity "a".toList "ab".toList =
        matchRatio (pyLower "a".toList) (pyLower "ab".toList) ∧
      0 ≤ similarity "a".toList "ab".toList ∧
      similarity "a".toList "ab".toList ≤ 1) :=
  ⟨⟨by decide, by decide⟩,
    similarity_empty_zero_and_unit_range "a".toList "ab".toList (by decide) (by decide)⟩

/-- C9: for a fixed address similarity, increasing the name similarity never
flips a confident verdict to non-confident, in either confidence rule. -/
theorem confidence_monotonicity (a n₁ n₂ : ℚ) (h : n₁ ≤ n₂) :
    (confidentParallel n₁ a = true → confidentParallel n₂ a = true) ∧
    (confidentSingle n₁ = true → confidentSingle n₂ = true) := by
  constructor
  · intro h1
    simp only [confidentParallel, Bool.or_eq_true, Bool.and_eq_true,
      decide_eq_true_eq] at h1 ⊢
    rcases h1 with h1 | ⟨h1, h2⟩
    · exact Or.inl (lt_of_lt_of_le h1 h)
    · exact Or.inr ⟨lt_of_lt_of_le h1 h, h2⟩
  · intro h1
    simp only [confidentSingle, decide_eq_true_eq] at h1 ⊢
    exact lt_of_lt_of_le h1 h

theorem confidence_monotonicity_witness :
    ((0.95 : ℚ) ≤ 0.96) ∧
    ((confidentParallel 0.95 0 = true → confidentParallel 0.96 0 = true) ∧
      (confidentSingle 0.95 = true → confidentSingle 0.96 = true)) :=
  ⟨by norm_num, confidence_monotonicity 0 0.95 0.96 (by norm_num)⟩

lemma scrapeRestaurantP_confident_iff (r : Restaurant) (info : ExtractInfo)
    (gname now : String) (hg : info.google_name = some gname) (hne : gname ≠ "") :
    (scrapeRestaurantP r (Except.ok info) now).confident_match = some true ↔
      (similarity r.name.toList gname.toList > 0.9 ∨
        (similarity r.name.toList gname.toList > 0.5 ∧ addrSimP r info > 0.8)) := by
  simp [scrapeRestaurantP, hg, hne, confidentParallel, decide_eq_true_eq]

/-- C3: for every outcome with an extracted name, the parallel mode's verdict
is confident iff `name_sim > 0.9` or (`name_sim > 0.5` and `addr_sim > 0.8`),
and the single-stream mode's verdict is confident iff `name_sim > 0.7`; the
two variants are the rules of the two selectable run modes
(`scrapeRestaurantP` / `scrapeRestaurantS`). -/
theorem confidence_rule_variants (r : Restaurant) (info : ExtractInfo)
    (infoS : ExtractInfoS) (gname gnameS now : String)
    (hg : info.google_name = some gname) (hne : gname ≠ "")
    (hgS : infoS.google_name = some gnameS) (hneS : gnameS ≠ "") :
    ((scrapeRestaurantP r (Except.ok info) now).confident_match = some true ↔
      (similarity r.name.toList gname.toList > 0.9 ∨
        (similarity r.name.toList gname.toList > 0.5 ∧ addrSimP r info > 0.8))) ∧
    ((scrapeRestaurantS r (Except.ok infoS) now).confident_match = some true ↔
      similarity r.name.toList gnameS.toList > 0.7) := by
  constructor
  · exact scrapeRestaurantP_confident_iff r info gname now hg hne
  · simp [scrapeRestaurantS, hgS, hneS, confidentSingle, decide_eq_true_eq]

theorem confidence_rule_variants_witness :
    (sampleInfo.google_name = some "Joes Pizza" ∧ ("Joes Pizza" : String) ≠ "" ∧
      sampleInfoS.google_name = some "Joes Pizza") ∧
    (((scrapeRestaurantP sampleRestaurant (Except.ok sampleInfo) "t").confident_match
        = some true ↔
      (similarity sampleRestaurant.name.toList "Joes Pizza".toList > 0.9 ∨
        (similarity sampleRestaurant.name.toList "Joes Pizza".toList > 0.5 ∧
          addrSimP sampleRestaurant sampleInfo > 0.8))) ∧
    ((scrapeRestaurantS sampleRestaurant (Except.ok sampleInfoS) "t").confident_match
        = some true ↔
      similarity sampleRestaurant.name.toList "Joes Pizza".toList > 0.7)) :=
  ⟨⟨rfl, by decide, rfl⟩,
    confidence_rule_variants sampleRestaurant sampleInfo sampleInfoS
      "Joes Pizza" "Joes Pizza" "t" rfl (by decide) rfl (by decide)⟩

/-- C8: when the extracted or the original address is absent (missing or
empty), the `addr_sim` used in the parallel confidence comparison is exactly
`0` — never null — so the address branch (`addr_sim > 0.8`) cannot fire and
the verdict reduces to `name_sim > 0.9`. -/
theorem missing_address_defaults_zero (r : Restaurant) (info : ExtractInfo)
    (gname now : String)
    (hmiss : info.google_address = none ∨ info.google_address = some "" ∨
      r.address = "")
    (hg : info.google_name = some gname) (hne : gname ≠ "") :
    addrSimP r info = 0 ∧ ¬(addrSimP r info > 0.8) ∧
    ((scrapeRestaurantP r (Except.ok info) now).confident_match = some true ↔
      similarity r.name.toList gname.toList > 0.9) := by
  have h0 : addrSimP r info = 0 := by
    rcases hmiss with h | h | h
    · simp [addrSimP, h]
    · simp [addrSimP, h]
    · unfold addrSimP
      cases hga : info.google_address with
      | none => rfl
      | some gaddr => simp [h]
  refine ⟨h0, by rw [h0]; norm_num, ?_⟩
  rw [scrapeRestaurantP_confident_iff r info gname now hg hne, h0]
  constructor
  · rintro (h | ⟨_, h2⟩)
    · exact h
    · norm_num at h2
  · exact Or.inl

theorem missing_address_defaults_zero_witness :
    (sampleInfoNoAddr.google_address = none ∧
      sampleInfoNoAddr.google_name = some "Joes Pizza" ∧
      ("Joes Pizza" : String) ≠ "") ∧
    (addrSimP sampleRestaurant sampleInfoNoAddr = 0 ∧
      ¬(addrSimP sampleRestaurant sampleInfoNoAddr > 0.8) ∧
      ((scrapeRestaurantP sampleRestaurant
          (Except.ok sampleInfoNoAddr) "t").confident_match = some true ↔
        similarity sampleRestaurant.name.toList "Joes Pizza".toList > 0.9)) :=
  ⟨⟨rfl, rfl, by decide⟩,
    missing_address_defaults_zero sampleRestaurant sampleInfoNoAddr
      "Joes Pizza" "t" (Or.inl rfl) rfl (by decide)⟩

/-- C4: an error raised while fetching or extracting is caught and converted
into an outcome with `found = false` carrying the error text; recording it
appends to `failed` (length +1) and leaves `results` unchanged, and the step
is a total function — nothing propagates to the orchestrator. -/
theorem error_converted_to_data (r : Restaurant) (e now : String) (p : Progress)
    (info : ExtractInfo) (h1 : info.google_name = none)
    (h2 : info.found = false) (h3 : info.info_error = some e) :
    ((scrapeRestaurantP r (Except.error e) now).found = false ∧
      (scrapeRestaurantP r (Except.error e) now).out_error = some e ∧
      (recordOutcome p r (scrapeRestaurantP r (Except.error e) now)).failed =
        p.failed ++ [scrapeRestaurantP r (Except.error e) now] ∧
      (recordOutcome p r (scrapeRestaurantP r (Except.error e) now)).failed.length =
        p.failed.length + 1 ∧
      (recordOutcome p r (scrapeRestaurantP r (Except.error e) now)).results =
        p.results) ∧
    ((scrapeRestaurantP r (Except.ok info) now).found = false ∧
      (scrapeRestaurantP r (Except.ok info) now).out_error = some e ∧
      (recordOutcome p r (scrapeRestaurantP r (Except.ok info) now)).failed.length =
        p.failed.length + 1 ∧
      (recordOutcome p r (scrapeRestaurantP r (Except.ok info) now)).results =
        p.results) := by
  constructor
  · simp [scrapeRestaurantP, recordOutcome, baseOutcome]
  · simp [scrapeRestaurantP, recordOutcome, baseOutcome, h1, h2, h3]

theorem error_converted_to_data_witness :
    (sampleInfoFailed.google_name = none ∧ sampleInfoFailed.found = false ∧
      sampleInfoFailed.info_error = some "Timeout 15000ms exceeded.") ∧
    (((scrapeRestaurantP sampleRestaurant
          (Except.error "Timeout 15000ms exceeded.") "t").found = false ∧
      (scrapeRestaurantP sampleRestaurant
          (Except.error "Timeout 15000ms exceeded.") "t").out_error =
        some "Timeout 15000ms exceeded." ∧
      (recordOutcome emptyProgress sampleRestaurant
          (scrapeRestaurantP sampleRestaurant
            (Except.error "Timeout 15000ms exceeded.") "t")).failed =
        emptyProgress.failed ++ [scrapeRestaurantP sampleRestaurant
          (Except.error "Timeout 15000ms exceeded.") "t"] ∧
      (recordOutcome emptyProgress sampleRestaurant
          (scrapeRestaurantP sampleRestaurant
            (Except.error "Timeout 15000ms exceeded.") "t")).failed.length =
        emptyProgress.failed.length + 1 ∧
      (recordOutcome emptyProgress sampleRestaurant
          (scrapeRestaurantP sampleRestaurant
            (Except.error "Timeout 15000ms exceeded.") "t")).results =
        emptyProgress.results) ∧
    ((scrapeRestaurantP sampleRestaurant (Except.ok sampleInfoFailed) "t").found
        = false ∧
      (scrapeRestaurantP sampleRestaurant (Except.ok sampleInfoFailed) "t").out_error
        = some "Timeout 15000ms exceeded." ∧
      (recordOutcome emptyProgress sampleRestaurant
          (scrapeRestaurantP sampleRestaurant
            (Except.ok sampleInfoFailed) "t")).failed.length =
        emptyProgress.failed.length + 1 ∧
      (recordOutcome emptyProgress sampleRestaurant
          (scrapeRestaurantP sampleRestaurant
            (Except.ok sampleInfoFailed) "t")).results = emptyProgress.results)) :=
  ⟨⟨rfl, rfl, rfl⟩,
    error_converted_to_data sampleRestaurant "Timeout 15000ms exceeded." "t"
      emptyProgress sampleInfoFailed rfl rfl rfl⟩

/- ### Checkpoint round-trip -/

lemma asOptStr_enc (x : Option String) : asOptStr (encOptStr x) = some x := by
  cases x <;> rfl

lemma asOptNum_enc (x : Option ℚ) : asOptNum (encOptNum x) = some x := by
  cases x <;> rfl

lemma asOptBool_enc (x : Option Bool) : asOptBool (encOptBool x) = some x := by
  cases x <;> rfl

lemma decodeList_map {α : Type} (dec : Json → Option α) (enc : α → Json)
    (h : ∀ x, dec (enc x) = some x) :
    ∀ l : List α, decodeList dec (l.map enc) = some l := by
  intro l
  induction l with
  | nil => rfl
  | cons x xs ih => simp [decodeList, h x, ih]

lemma decodeOutcome_encodeOutcome (o : Outcome) :
    decodeOutcome (encodeOutcome o) = some o := by
  simp [decodeOutcome, encodeOutcome, getField, asStr, asBool,
    asOptStr_enc, asOptNum_enc, asOptBool_enc]

lemma decodeProgress_encodeProgress (p : Progress) :
    decodeProgress (encodeProgress p) = some p := by
  simp [decodeProgress, encodeProgress, getField, asArr, asOptStr_enc,
    decodeList_map asStr Json.str (fun s => rfl),
    decodeList_map decodeOutcome encodeOutcome decodeOutcome_encodeOutcome]

/-- C6: writing a checkpoint (`save_progress`) and loading it back
(`load_progress`) reproduces an equal ProgressState: the same completed-key
collection, the same success outcomes and the same failure outcomes,
content for content (`last_updated` is refreshed by the write, as the code
does). -/
theorem checkpoint_roundtrip (p : Progress) (now : String) :
    load_progress (some (save_progress p now)) =
      Except.ok (encodeProgress { p with last_updated := some now }) ∧
    decodeProgress (encodeProgress { p with last_updated := some now }) =
      some { p with last_updated := some now } ∧
    ({ p with last_updated := some now } : Progress).scraped_ids = p.scraped_ids ∧
    ({ p with last_updated := some now } : Progress).results = p.results ∧
    ({ p with last_updated := some now } : Progress).failed = p.failed :=
  ⟨rfl, decodeProgress_encodeProgress _, rfl, rfl, rfl⟩

/- ### Checkpoint loading (claim C5) -/

/-- C5 counterexample: with resume requested, a fresh start NOT requested, and
the checkpoint artifact missing, `load_progress` silently returns the empty
ProgressState instead of failing loudly. -/
theorem checkpoint_missing_loads_silently :
    initialProgress true none = Except.ok emptyProgressJson ∧
    decodeProgress emptyProgressJson = some emptyProgress :=
  ⟨rfl, rfl⟩

/-- C5 amended: under resume, a *corrupt* checkpoint artifact fails loudly
(the JSON decode error propagates) and a present valid artifact is returned
as-is, but a *missing* artifact silently yields the empty ProgressState even
under resume; when a fresh start is requested (`resume = false`) the artifact
is not consulted and the state starts empty. -/
theorem checkpoint_load_behavior (t : String) (j : Json) (a : Option Artifact) :
    initialProgress true (some (Artifact.corrupt t)) =
      Except.error "json.decoder.JSONDecodeError" ∧
    initialProgress true (some (Artifact.valid j)) = Except.ok j ∧
    initialProgress true none = Except.ok emptyProgressJson ∧
    initialProgress false a = Except.ok emptyProgressJson :=
  ⟨rfl, rfl, rfl, rfl⟩

/- ### Address normalization (claim C7) -/

lemma uint32_le_iff (a b : UInt32) : a ≤ b ↔ a.toNat ≤ b.toNat := by
  rw [UInt32.le_def, BitVec.le_def]
  rfl

lemma isUpper_toLower (c : Char) : (Char.toLower c).isUpper = false := by
  unfold Char.toLower Char.isUpper
  by_cases h : c.toNat ≥ 65 ∧ c.toNat ≤ 90
  · simp only [if_pos h]
    obtain ⟨h1, h2⟩ := h
    have hvalid : (c.toNat + 32).isValidChar := by left; omega
    have hval : (Char.ofNat (c.toNat + 32)).val.toNat = c.toNat + 32 := by
      rw [Char.ofNat, dif_pos hvalid]
      rfl
    have : ¬((Char.ofNat (c.toNat + 32)).val ≤ 90) := by
      rw [uint32_le_iff, hval]
      intro hle
      have : (90 : UInt32).toNat = 90 := rfl
      omega
    simp [this]
  · simp only [if_neg h]
    rcases not_and_or.mp h with h1 | h2
    · have : ¬((65 : UInt32) ≤ c.val) := by
        rw [uint32_le_iff]
        have : (65 : UInt32).toNat = 65 := rfl
        have hc : c.val.toNat = c.toNat := rfl
        intro hle
        exact h1 (by omega)
      simp [this]
    · have : ¬(c.val ≤ (90 : UInt32)) := by
        rw [uint32_le_iff]
        have : (90 : UInt32).toNat = 90 := rfl
        have hc : c.val.toNat = c.toNat := rfl
        intro hle
        exact h2 (by omega)
      simp [this]

lemma pyReplaceAux_mem {P : Char → Prop} (pat rep : List Char)
    (hrep : ∀ c ∈ rep, P c) :
    ∀ (fuel : Nat) (s : List Char), (∀ c ∈ s, P c) →
      ∀ c ∈ pyReplaceAux pat rep fuel s, P c := by
  intro fuel
  induction fuel with
  | zero =>
    intro s hs c hc
    cases s with
    | nil => simp [pyReplaceAux] at hc
    | cons d rest => exact hs c (by simpa [pyReplaceAux] using hc)
  | succ n ih =>
    intro s hs c hc
    cases s with
    | nil => simp [pyReplaceAux] at hc
    | cons d rest =>
      rw [pyReplaceAux] at hc
      split at hc
      · rcases List.mem_append.mp hc with h | h
        · exact hrep c h
        · exact ih _ (fun x hx => hs x (List.drop_subset _ _ hx)) c h
      · rcases List.mem_cons.mp hc with rfl | h
        · exact hs _ (List.mem_cons_self _ _)
        · exact ih rest (fun x hx => hs x (List.mem_cons_of_mem _ hx)) c h

lemma pyReplace_mem {P : Char → Prop} (s pat rep : List Char)
    (hs : ∀ c ∈ s, P c) (hrep : ∀ c ∈ rep, P c) :
    ∀ c ∈ pyReplace s pat rep, P c :=
  pyReplaceAux_mem pat rep hrep s.length s hs

lemma foldl_pyReplace_mem {P : Char → Prop} :
    ∀ (reps : List (List Char × List Char)),
      (∀ pr ∈ reps, ∀ c ∈ pr.2, P c) →
      ∀ s : List Char, (∀ c ∈ s, P c) →
        ∀ c ∈ reps.foldl (fun t pr => pyReplace t pr.1 pr.2) s, P c := by
  intro reps
  induction reps with
  | nil => intro _ s hs c hc; exact hs c hc
  | cons pr rest ih =>
    intro hreps s hs c hc
    simp only [List.foldl_cons] at hc
    exact ih (fun x hx => hreps x (List.mem_cons_of_mem _ hx))
      (pyReplace s pr.1 pr.2)
      (pyReplace_mem s pr.1 pr.2 hs (hreps pr (List.mem_cons_self _ _)))
      c hc

lemma pyStrip_subset (s : List Char) : ∀ c ∈ pyStrip s, c ∈ s := by
  intro c hc
  unfold pyStrip at hc
  rw [List.mem_reverse] at hc
  have h1 := (List.dropWhile_sublist (l := (s.dropWhile Char.isWhitespace).reverse)
    Char.isWhitespace).subset hc
  rw [List.mem_reverse] at h1
  exact (List.dropWhile_sublist (l := s) Char.isWhitespace).subset h1

lemma normalize_address_chars (addr : List Char) :
    ∀ c ∈ normalize_address addr, c ≠ ',' ∧ c.isUpper = false := by
  intro c hc
  unfold normalize_address at hc
  split at hc
  · simp at hc
  · set a1 := pyLower addr with ha1
    set a2 := if (',' ∈ a1) then a1.takeWhile (fun c => c ≠ ',') else a1 with ha2
    have ha2chars : ∀ x ∈ a2, x ≠ ',' ∧ x.isUpper = false := by
      intro x hx
      have hxa1 : x ∈ a1 := by
        rw [ha2] at hx
        split at hx
        · exact (List.takeWhile_sublist _).subset hx
        · exact hx
      have hlow : x.isUpper = false := by
        rw [ha1] at hxa1
        obtain ⟨y, _, rfl⟩ := List.mem_map.mp hxa1
        exact isUpper_toLower y
      refine ⟨?_, hlow⟩
      rw [ha2] at hx
      split at hx
      · have := List.mem_takeWhile_imp hx
        simpa using this
      · rename_i hno
        intro he
        exact hno (he ▸ hxa1)
    have hreps : ∀ pr ∈ addressReplacements, ∀ x ∈ pr.2,
        x ≠ ',' ∧ x.isUpper = false := by decide
    exact foldl_pyReplace_mem addressReplacements hreps a2 ha2chars c
      (pyStrip_subset _ c hc)

/-- C7 counterexample: an input with a run of three spaces normalizes to a
string that still contains two adjacent spaces — the double-space replacement
is a single non-overlapping pass, not a full whitespace collapse. -/
theorem normalize_address_triple_space :
    normalize_address "a   b".toList = "a  b".toList ∧
    hasDoubleSpace (normalize_address "a   b".toList) = true := by
  decide

/-- C7 amended: address normalization lower-cases (the output contains no
ASCII uppercase letter), truncates to the segment before the first comma
(the output contains no comma), applies the eight street-suffix substring
replacements (e.g. `street → st`), and shortens space runs by replacing
non-overlapping pairs of adjacent spaces with a single space in one
left-to-right pass — so a run of exactly two spaces collapses to one, but a
run of three spaces leaves two adjacent spaces. -/
theorem normalize_address_properties (addr : List Char) (c : Char)
    (hc : c ∈ normalize_address addr) :
    (c ≠ ',' ∧ c.isUpper = false) ∧
    normalize_address "123 Bleecker Street, New York, NY".toList =
      "123 bleecker st".toList ∧
    normalize_address "a  b".toList = "a b".toList ∧
    normalize_address "a   b".toList = "a  b".toList :=
  ⟨normalize_address_chars addr c hc, by decide, by decide, by decide⟩

theorem normalize_address_properties_witness :
    ('b' ∈ normalize_address "Ab, c".toList) ∧
    ((('b' : Char) ≠ ',' ∧ ('b' : Char).isUpper = false) ∧
      normalize_address "123 Bleecker Street, New York, NY".toList =
        "123 bleecker st".toList ∧
      normalize_address "a  b".toList = "a b".toList ∧
      normalize_address "a   b".toList = "a  b".toList) :=
  ⟨by decide, normalize_address_properties "Ab, c".toList 'b' (by decide)⟩

/- ### Task queue construction (claim C2) -/

lemma length_filter_not_completed :
    ∀ (l : List Restaurant) (C : List String),
      (l.map restaurantId).Nodup → C.Nodup →
      (∀ k ∈ C, k ∈ l.map restaurantId) →
      (l.filter fun r => !(C.contains (restaurantId r))).length =
        l.length - C.length := by
  intro l
  induction l with
  | nil =>
    intro C _ _ hsub
    have hC : C = [] := by
      cases C with
      | nil => rfl
      | cons k ks => exact absurd (hsub k (List.mem_cons_self _ _)) (by simp)
    simp [hC]
  | cons r rest ih =>
    intro C hnd hC hsub
    rw [List.map_cons, List.nodup_cons] at hnd
    obtain ⟨hr_not, hrest_nd⟩ := hnd
    by_cases hmem : restaurantId r ∈ C
    · have hcond : (!(C.contains (restaurantId r))) = false := by simp [hmem]
      rw [List.filter_cons, hcond]
      simp only [Bool.false_eq_true, if_false]
      have hC' := hC.erase (restaurantId r)
      have hsub' : ∀ k ∈ C.erase (restaurantId r), k ∈ rest.map restaurantId := by
        intro k hk
        have hkne := ((hC.mem_erase_iff).mp hk).1
        have hkC := ((hC.mem_erase_iff).mp hk).2
        rcases List.mem_cons.mp (hsub k hkC) with he | hm
        · exact absurd he hkne
        · exact hm
      have hfe : rest.filter (fun x => !(C.contains (restaurantId x)))
          = rest.filter
            (fun x => !((C.erase (restaurantId r)).contains (restaurantId x))) := by
        apply List.filter_congr
        intro x hx
        have hxne : restaurantId x ≠ restaurantId r := fun he =>
          hr_not (he ▸ List.mem_map_of_mem restaurantId hx)
        have hiff : (restaurantId x ∈ C) ↔
            (restaurantId x ∈ C.erase (restaurantId r)) := by
          rw [hC.mem_erase_iff]
          exact ⟨fun h => ⟨hxne, h⟩, fun h => h.2⟩
        simp [hiff]
      rw [hfe, ih _ hrest_nd hC' hsub', List.length_erase_of_mem hmem]
      have hpos : 0 < C.length := List.length_pos_of_mem hmem
      simp only [List.length_cons]
      omega
    · have hcond : (!(C.contains (restaurantId r))) = true := by simp [hmem]
      rw [List.filter_cons, hcond]
      simp only [if_true]
      have hsub' : ∀ k ∈ C, k ∈ rest.map restaurantId := by
        intro k hk
        rcases List.mem_cons.mp (hsub k hk) with he | hm
        · exact absurd (he ▸ hk) hmem
        · exact hm
      have hlen : C.length ≤ rest.length := by
        have hsp := hC.subperm (fun k hk => hsub' k hk)
        have := hsp.length_le
        simpa using this
      rw [List.length_cons, ih C hrest_nd hC hsub']
      simp only [List.length_cons]
      omega

/-- C2: the task queue is the spec's construction — completed keys filtered
out, then (when prioritization is on) unspecified-category entities first;
no queued entity's key is completed; and with `k` distinct completed keys
drawn from an entity list with distinct keys, the queue has exactly
`original count - k` tasks (the resume scenario). -/
theorem task_queue_construction (restaurants : List Restaurant) (p : Progress)
    (b : Bool)
    (hnodup : (restaurants.map restaurantId).Nodup)
    (hcnd : p.scraped_ids.Nodup)
    (hsub : ∀ k ∈ p.scraped_ids, k ∈ restaurants.map restaurantId) :
    derivedQueue restaurants p b none = specQueue restaurants p.scraped_ids b ∧
    (∀ r ∈ derivedQueue restaurants p b none, restaurantId r ∉ p.scraped_ids) ∧
    (derivedQueue restaurants p b none).length =
      restaurants.length - p.scraped_ids.length := by
  have heq : derivedQueue restaurants p b none =
      specQueue restaurants p.scraped_ids b := by
    unfold derivedQueue specQueue
    cases b
    · simp
    · simp [List.partition_eq_filter_filter]
  refine ⟨heq, ?_, ?_⟩
  · intro r hr
    unfold derivedQueue at hr
    cases b
    · simp at hr
      exact hr.2
    · simp at hr
      rcases hr with ⟨_, _, h⟩ | ⟨_, _, h⟩ <;> exact h
  · unfold derivedQueue
    cases b
    · simpa using length_filter_not_completed restaurants p.scraped_ids
        hnodup hcnd hsub
    · have hperm := List.filter_append_perm isUnspecified
        (restaurants.filter (fun x => !(p.scraped_ids.contains (restaurantId x))))
      simp only [if_true]
      rw [hperm.length_eq]
      exact length_filter_not_completed restaurants p.scraped_ids hnodup hcnd hsub

theorem task_queue_construction_witness :
    ((sampleRestaurants.map restaurantId).Nodup ∧
      sampleProgressOne.scraped_ids.Nodup ∧
      ∀ k ∈ sampleProgressOne.scraped_ids, k ∈ sampleRestaurants.map restaurantId) ∧
    (derivedQueue sampleRestaurants sampleProgressOne true none =
        specQueue sampleRestaurants sampleProgressOne.scraped_ids true ∧
      (∀ r ∈ derivedQueue sampleRestaurants sampleProgressOne true none,
        restaurantId r ∉ sampleProgressOne.scraped_ids) ∧
      (derivedQueue sampleRestaurants sampleProgressOne true none).length =
        sampleRestaurants.length - sampleProgressOne.scraped_ids.length) :=
  ⟨⟨by decide, by decide, by decide⟩,
    task_queue_construction sampleRestaurants sampleProgressOne true
      (by decide) (by decide) (by decide)⟩

/- ### ProgressState invariant (claim C1) -/

lemma outcomeId_scrapeP (r : Restaurant) (f : Except String ExtractInfo)
    (now : String) : outcomeId (scrapeRestaurantP r f now) = restaurantId r := by
  cases f with
  | error e => rfl
  | ok info =>
    cases hgn : info.google_name with
    | none => simp [scrapeRestaurantP, hgn, outcomeId, baseOutcome, restaurantId]
    | some g =>
      by_cases hg : g = "" <;>
        simp [scrapeRestaurantP, hgn, hg, outcomeId, baseOutcome, restaurantId]

lemma progressInv_record (p : Progress) (r : Restaurant) (o : Outcome)
    (hid : outcomeId o = restaurantId r)
    (hinv : progressInv p) (hfresh : restaurantId r ∉ p.scraped_ids) :
    progressInv (recordOutcome p r o) := by
  obtain ⟨hlen, hres, hfail⟩ := hinv
  have hcount0 : p.scraped_ids.count (restaurantId r) = 0 :=
    List.count_eq_zero.mpr hfresh
  have hold : ∀ x : String, p.scraped_ids.count x = 1 →
      (p.scraped_ids ++ [restaurantId r]).count x = 1 := by
    intro x hx
    have hne : x ≠ restaurantId r := by
      intro he
      rw [he, hcount0] at hx
      exact absurd hx (by norm_num)
    rw [List.count_append, hx]
    simp [List.count_cons, hne]
  have hnew : (p.scraped_ids ++ [restaurantId r]).count (restaurantId r) = 1 := by
    rw [List.count_append, hcount0]
    simp
  unfold recordOutcome progressInv
  refine ⟨?_, ?_, ?_⟩
  · by_cases hf : o.found <;> simp [hf, List.length_append, hlen] <;> omega
  · intro o' ho'
    by_cases hf : o.found
    · simp only [hf, if_true] at ho' ⊢
      rcases List.mem_append.mp ho' with h | h
      · exact hold _ (hres o' h)
      · rw [List.mem_singleton] at h
        subst h
        rw [hid]
        exact hnew
    · simp only [hf, Bool.false_eq_true, if_false] at ho' ⊢
      exact hold _ (hres o' ho')
  · intro o' ho'
    by_cases hf : o.found
    · simp only [hf, if_true] at ho' ⊢
      exact hold _ (hfail o' ho')
    · simp only [hf, Bool.false_eq_true, if_false] at ho' ⊢
      rcases List.mem_append.mp ho' with h | h
      · exact hold _ (hfail o' h)
      · rw [List.mem_singleton] at h
        subst h
        rw [hid]
        exact hnew

lemma runRecord_inv :
    ∀ (steps : List (Restaurant × Except String ExtractInfo × String)) (p : Progress),
      progressInv p →
      (∀ s ∈ steps, restaurantId s.1 ∉ p.scraped_ids) →
      ((steps.map fun s => restaurantId s.1).Nodup) →
      progressInv (runRecord p steps) ∧
        ∀ k : String,
          p.scraped_ids.count k ≤ (runRecord p steps).scraped_ids.count k := by
  intro steps
  induction steps with
  | nil =>
    intro p hinv _ _
    exact ⟨hinv, fun k => le_refl _⟩
  | cons s ss ih =>
    intro p hinv hfresh hnd
    rw [List.map_cons, List.nodup_cons] at hnd
    obtain ⟨hhead, htail⟩ := hnd
    have hfresh0 : restaurantId s.1 ∉ p.scraped_ids :=
      hfresh s (List.mem_cons_self _ _)
    have hinv' : progressInv
        (recordOutcome p s.1 (scrapeRestaurantP s.1 s.2.1 s.2.2)) :=
      progressInv_record p s.1 _ (outcomeId_scrapeP s.1 s.2.1 s.2.2)
        ⟨hinv.1, hinv.2.1, hinv.2.2⟩ hfresh0
    have hfresh' : ∀ t ∈ ss, restaurantId t.1 ∉
        (recordOutcome p s.1 (scrapeRestaurantP s.1 s.2.1 s.2.2)).scraped_ids := by
      intro t ht hm
      simp only [recordOutcome] at hm
      rcases List.mem_append.mp hm with h | h
      · exact hfresh t (List.mem_cons_of_mem _ ht) h
      · rw [List.mem_singleton] at h
        exact hhead (h ▸ List.mem_map_of_mem (fun x => restaurantId x.1) ht)
    obtain ⟨hi, hc⟩ := ih _ hinv' hfresh' htail
    have hstep : runRecord p (s :: ss) =
        runRecord (recordOutcome p s.1 (scrapeRestaurantP s.1 s.2.1 s.2.2)) ss := rfl
    refine ⟨hstep ▸ hi, fun k => ?_⟩
    rw [hstep]
    refine le_trans ?_ (hc k)
    simp [recordOutcome, List.count_append]

/-- C1 counterexample: starting from the empty ProgressState and recording the
same identity key twice (an entity list containing two entities with the same
name and address produces exactly this trace), the key appears twice in the
completed-key collection — the exactly-once part of the invariant fails. -/
theorem progress_invariant_duplicate_key :
    ¬ progressInv (runRecord emptyProgress dupSteps) ∧
    (runRecord emptyProgress dupSteps).scraped_ids.count
      (restaurantId sampleRestaurant) = 2 ∧
    (runRecord emptyProgress dupSteps).scraped_ids.length = 2 ∧
    (runRecord emptyProgress dupSteps).failed.length = 2 := by
  decide

lemma runRecord_lengths :
    ∀ (steps : List (Restaurant × Except String ExtractInfo × String)) (p : Progress),
      (runRecord p steps).scraped_ids.length = p.scraped_ids.length + steps.length ∧
      (runRecord p steps).results.length + (runRecord p steps).failed.length =
        p.results.length + p.failed.length + steps.length ∧
      ∀ k : String,
        p.scraped_ids.count k ≤ (runRecord p steps).scraped_ids.count k := by
  intro steps
  induction steps with
  | nil =>
    intro p
    exact ⟨by simp [runRecord], by simp [runRecord], fun k => le_refl _⟩
  | cons s ss ih =>
    intro p
    have hstep : runRecord p (s :: ss) =
        runRecord (recordOutcome p s.1 (scrapeRestaurantP s.1 s.2.1 s.2.2)) ss := rfl
    obtain ⟨h1, h2, h3⟩ :=
      ih (recordOutcome p s.1 (scrapeRestaurantP s.1 s.2.1 s.2.2))
    have hone : (recordOutcome p s.1
          (scrapeRestaurantP s.1 s.2.1 s.2.2)).results.length +
        (recordOutcome p s.1 (scrapeRestaurantP s.1 s.2.1 s.2.2)).failed.length =
        p.results.length + p.failed.length + 1 := by
      by_cases hf : (scrapeRestaurantP s.1 s.2.1 s.2.2).found <;>
        simp [recordOutcome, hf] <;> omega
    have hsc : (recordOutcome p s.1
          (scrapeRestaurantP s.1 s.2.1 s.2.2)).scraped_ids.length =
        p.scraped_ids.length + 1 := by
      simp [recordOutcome]
    rw [hstep]
    refine ⟨?_, ?_, fun k => ?_⟩
    · rw [h1, hsc]
      simp only [List.length_cons]
      omega
    · rw [h2, hone]
      simp only [List.length_cons]
      omega
    · exact le_trans (by simp [recordOutcome, List.count_append]) (h3 k)

/-- C1 amended: for every sequence of recording steps — including sequences
that record the same identity key twice — starting from a ProgressState
whose completed-key count equals successes plus failures (as an empty or
previously valid state does), the completed-key count still equals successes
plus failures after the run, and no key's multiplicity in the completed-key
collection ever decreases; and provided additionally that the recorded keys
are pairwise distinct and not already completed (which queue construction
guarantees whenever the entity list itself has no duplicate identity keys),
every key whose outcome is in successes or failures appears exactly once in
the completed-key collection. -/
theorem progress_invariant_preserved (p : Progress)
    (steps : List (Restaurant × Except String ExtractInfo × String)) (k : String)
    (hlen : p.scraped_ids.length = p.results.length + p.failed.length) :
    (runRecord p steps).scraped_ids.length =
      (runRecord p steps).results.length + (runRecord p steps).failed.length ∧
    p.scraped_ids.count k ≤ (runRecord p steps).scraped_ids.count k ∧
    (progressInv p →
      (∀ s ∈ steps, restaurantId s.1 ∉ p.scraped_ids) →
      ((steps.map fun s => restaurantId s.1).Nodup) →
      progressInv (runRecord p steps)) := by
  obtain ⟨h1, h2, h3⟩ := runRecord_lengths steps p
  exact ⟨by omega, h3 k,
    fun hinv hfresh hnd => (runRecord_inv steps p hinv hfresh hnd).1⟩

theorem progress_invariant_preserved_witness :
    (emptyProgress.scraped_ids.length =
      emptyProgress.results.length + emptyProgress.failed.length) ∧
    ((runRecord emptyProgress dupSteps).scraped_ids.length =
        (runRecord emptyProgress dupSteps).results.length +
          (runRecord emptyProgress dupSteps).failed.length ∧
      emptyProgress.scraped_ids.count "Joes Pizza|7 Carmine St" ≤
        (runRecord emptyProgress dupSteps).scraped_ids.count
          "Joes Pizza|7 Carmine St" ∧
      (progressInv emptyProgress →
        (∀ s ∈ dupSteps, restaurantId s.1 ∉ emptyProgress.scraped_ids) →
        ((dupSteps.map fun s => restaurantId s.1).Nodup) →
        progressInv (runRecord emptyProgress dupSteps))) :=
  ⟨by decide,
    progress_invariant_preserved emptyProgress dupSteps "Joes Pizza|7 Carmine St"
      (by decide)⟩

end Scraper
